import Mathlib

set_option linter.unusedVariables false

/-
Verification of the SerialNumber library (RFC1982 serial-number arithmetic).

The library wraps a fixed-width unsigned integer and redefines ordering so
that wraparound is handled per RFC1982.  The class itself (constructor
specializations, value getter, assignment, prefix/postfix increment) is in
src/src/SerialNumberClass.hpp; the comparison operators are declared in the
header (SerialNumber.h) but their implementation file
(SerialNumberOperators.hpp) is not among the sources, so the comparison
functions below are modelled from the specification and the RFC1982
definitions documented in the header mainpage and the README.
-/

/-- Supported underlying widths: the constructor is specialized only for
uint8_t, uint16_t, uint32_t, uint64_t and uint128_t
(SerialNumberClass.hpp lines 53-76). -/
def supportedWidth (W : Nat) : Prop :=
  W = 8 ∨ W = 16 ∨ W = 32 ∨ W = 64 ∨ W = 128

/-- The critical modular distance threshold 2^(SERIAL_BITS - 1). -/
def HALF (W : Nat) : Nat := 2 ^ (W - 1)

/-- The SerialNumber class template: holds one unsigned integer n of
bit-width W (SerialNumber.h lines 326-352).  The width is a phantom type
parameter; the invariant n < 2^W mirrors the C++ type of the member. -/
structure SerialNumber (W : Nat) where
  n : Nat

/-- Getter for the stored serial number (SerialNumberClass.hpp lines 85-88). -/
def SerialNumber.value {W : Nat} (s : SerialNumber W) : Nat := s.n

/-- C++ prefix increment (SerialNumberClass.hpp lines 111-115): ++n on a
W-bit unsigned member wraps modulo 2^W; the operator returns *this, i.e.
the post-increment state.  Modelled as (returned value, new receiver state). -/
def SerialNumber.preInc {W : Nat} (s : SerialNumber W) :
    SerialNumber W × SerialNumber W :=
  (⟨(s.n + 1) % 2 ^ W⟩, ⟨(s.n + 1) % 2 ^ W⟩)

/-- C++ postfix increment (SerialNumberClass.hpp lines 120-125): copies the
current state into temp, performs ++n, returns temp.  Modelled as
(returned snapshot, new receiver state). -/
def SerialNumber.postInc {W : Nat} (s : SerialNumber W) :
    SerialNumber W × SerialNumber W :=
  (⟨s.n⟩, ⟨(s.n + 1) % 2 ^ W⟩)

/-- Modelled from the spec: SerialNumberOperators.hpp is missing from the
sources; equality of serial numbers is plain numeric equality of the raw
values (spec section 4.1, header mainpage lines 45-46). -/
def sn_eq (W i1 i2 : Nat) : Bool := i1 == i2

/-- Modelled from the spec: inequality is the negation of equality. -/
def sn_ne (W i1 i2 : Nat) : Bool := !sn_eq W i1 i2

/-- Modelled from the spec: SerialNumberOperators.hpp is missing from the
sources; lower-than follows the RFC1982 definition documented in the header
mainpage (lines 53-59) and README (lines 12-15): s1 < s2 iff s1 is not
equal to s2 and (i1 < i2 and i2 - i1 < 2^(SERIAL_BITS-1)) or
(i1 > i2 and i1 - i2 > 2^(SERIAL_BITS-1)). -/
def sn_lt (W i1 i2 : Nat) : Bool :=
  decide (i1 ≠ i2 ∧
    ((i1 < i2 ∧ i2 - i1 < HALF W) ∨ (i1 > i2 ∧ i1 - i2 > HALF W)))

/-- Modelled from the spec: greater-than follows the RFC1982 definition
documented in the header mainpage (lines 61-67) and README (lines 17-22). -/
def sn_gt (W i1 i2 : Nat) : Bool :=
  decide (i1 ≠ i2 ∧
    ((i1 < i2 ∧ i2 - i1 > HALF W) ∨ (i1 > i2 ∧ i1 - i2 < HALF W)))

/-- Modelled from the spec: lower-or-equal is equality or lower-than
(spec section 4.1). -/
def sn_le (W i1 i2 : Nat) : Bool := sn_eq W i1 i2 || sn_lt W i1 i2

/-- Modelled from the spec: greater-or-equal is equality or greater-than
(spec section 4.1). -/
def sn_ge (W i1 i2 : Nat) : Bool := sn_eq W i1 i2 || sn_gt W i1 i2

/-- C++ static_cast of a plain number to the W-bit unsigned underlying type:
truncation modulo 2^W (documented in the header mainpage lines 105-113). -/
def staticCastW (W v : Nat) : Nat := v % 2 ^ W

/-- Modelled from the spec: comparing a SerialNumber to a plain number first
casts the number to the underlying data type, then applies the same
algorithm (header mainpage lines 105-113, spec section 4.1). -/
def sn_eq_mixed {W : Nat} (s : SerialNumber W) (v : Nat) : Bool :=
  sn_eq W s.n (staticCastW W v)

/-- Modelled from the spec: mixed-operand inequality, cast then compare. -/
def sn_ne_mixed {W : Nat} (s : SerialNumber W) (v : Nat) : Bool :=
  sn_ne W s.n (staticCastW W v)

/-- Modelled from the spec: mixed-operand lower-than, cast then compare. -/
def sn_lt_mixed {W : Nat} (s : SerialNumber W) (v : Nat) : Bool :=
  sn_lt W s.n (staticCastW W v)

/-- Modelled from the spec: mixed-operand greater-than, cast then compare. -/
def sn_gt_mixed {W : Nat} (s : SerialNumber W) (v : Nat) : Bool :=
  sn_gt W s.n (staticCastW W v)

/-- Modelled from the spec: mixed-operand lower-or-equal, cast then compare. -/
def sn_le_mixed {W : Nat} (s : SerialNumber W) (v : Nat) : Bool :=
  sn_le W s.n (staticCastW W v)

/-- Modelled from the spec: mixed-operand greater-or-equal, cast then
compare. -/
def sn_ge_mixed {W : Nat} (s : SerialNumber W) (v : Nat) : Bool :=
  sn_ge W s.n (staticCastW W v)

/-- The redundant inequality conjunct of the RFC1982 lower-than formula can
be dropped: each disjunct already forces the values apart. -/
theorem sn_lt_spec (W a b : Nat) :
    sn_lt W a b =
      decide ((a < b ∧ b - a < HALF W) ∨ (b < a ∧ HALF W < a - b)) := by
  simp only [sn_lt, decide_eq_decide]
  constructor
  · rintro ⟨-, h⟩
    exact h
  · intro h
    refine ⟨?_, h⟩
    rcases h with ⟨h1, -⟩ | ⟨h1, -⟩
    · exact Nat.ne_of_lt h1
    · exact (Nat.ne_of_lt h1).symm

/-- The redundant inequality conjunct of the RFC1982 greater-than formula
can be dropped: each disjunct already forces the values apart. -/
theorem sn_gt_spec (W a b : Nat) :
    sn_gt W a b =
      decide ((a < b ∧ HALF W < b - a) ∨ (b < a ∧ a - b < HALF W)) := by
  simp only [sn_gt, decide_eq_decide]
  constructor
  · rintro ⟨-, h⟩
    exact h
  · intro h
    refine ⟨?_, h⟩
    rcases h with ⟨h1, -⟩ | ⟨h1, -⟩
    · exact Nat.ne_of_lt h1
    · exact (Nat.ne_of_lt h1).symm

/-- C3: the asymmetric operators are exact mirrors under swapping the
operand order: eq(a,b) = eq(b,a), lt(a,b) = gt(b,a), le(a,b) = ge(b,a). -/
theorem sn_mirror_symmetry (W a b : Nat) :
    sn_eq W a b = sn_eq W b a ∧ sn_lt W a b = sn_gt W b a ∧
    sn_le W a b = sn_ge W b a := by
  have heq : sn_eq W a b = sn_eq W b a := by
    by_cases h : a = b
    · subst h; rfl
    · simp [sn_eq, h, Ne.symm h]
  have hlt : sn_lt W a b = sn_gt W b a := by
    simp only [sn_lt, sn_gt, decide_eq_decide]
    constructor
    · rintro ⟨hne, hd⟩
      exact ⟨Ne.symm hne, hd.symm⟩
    · rintro ⟨hne, hd⟩
      exact ⟨Ne.symm hne, hd.symm⟩
  refine ⟨heq, hlt, ?_⟩
  simp only [sn_le, sn_ge, heq, hlt]

/-- C4: eq(a,b) is true iff the two underlying unsigned integers are
numerically equal, and ne(a,b) is the negation of eq(a,b). -/
theorem sn_eq_is_plain_equality (W a b : Nat) :
    (sn_eq W a b = true ↔ a = b) ∧ sn_ne W a b = !sn_eq W a b := by
  exact ⟨by simp [sn_eq], rfl⟩

/-- C5: le(a,b) = eq(a,b) or lt(a,b), ge(a,b) = eq(a,b) or gt(a,b), and
consequently le(a,a) = true, ge(a,a) = true, eq(a,a) = true, ne(a,a) = false. -/
theorem sn_le_ge_decomposition (W a b : Nat) :
    sn_le W a b = (sn_eq W a b || sn_lt W a b) ∧
    sn_ge W a b = (sn_eq W a b || sn_gt W a b) ∧
    sn_le W a a = true ∧ sn_ge W a a = true ∧
    sn_eq W a a = true ∧ sn_ne W a a = false := by
  have hself : sn_eq W a a = true := by simp [sn_eq]
  refine ⟨rfl, rfl, ?_, ?_, hself, ?_⟩
  · simp [sn_le, hself]
  · simp [sn_ge, hself]
  · simp [sn_ne, hself]

/-- C1: for every supported width W and all W-bit values i1, i2, the
lower-than comparison is false when i1 = i2, equals (i2 - i1) < HALF when
i1 < i2, and equals (i1 - i2) > HALF when i1 > i2 (ordinary non-modular
subtraction); in particular at width 8, gt(10, 250) = true and
lt(10, 250) = false. -/
theorem sn_lt_case_form (W i1 i2 : Nat) (hW : supportedWidth W)
    (h1 : i1 < 2 ^ W) (h2 : i2 < 2 ^ W) :
    (sn_lt W i1 i2 =
      if i1 = i2 then false
      else if i1 < i2 then decide (i2 - i1 < HALF W)
      else decide (i1 - i2 > HALF W)) ∧
    sn_gt 8 10 250 = true ∧ sn_lt 8 10 250 = false := by
  refine ⟨?_, by decide, by decide⟩
  rcases Nat.lt_trichotomy i1 i2 with h | h | h
  · rw [if_neg (Nat.ne_of_lt h), if_pos h, sn_lt_spec, decide_eq_decide]
    constructor
    · rintro (⟨-, hlt⟩ | ⟨hgt, -⟩)
      · exact hlt
      · exact absurd h (Nat.lt_asymm hgt)
    · intro hlt
      exact Or.inl ⟨h, hlt⟩
  · subst h
    rw [if_pos rfl, sn_lt_spec]
    simp
  · rw [if_neg (Nat.ne_of_lt h).symm, if_neg (Nat.lt_asymm h), sn_lt_spec,
      decide_eq_decide]
    constructor
    · rintro (⟨hlt, -⟩ | ⟨-, hgt⟩)
      · exact absurd h (Nat.lt_asymm hlt)
      · exact hgt
    · intro hgt
      exact Or.inr ⟨h, hgt⟩

/-- C1 witness: the general case form instantiated at width 8 with
i1 = 10, i2 = 250. -/
theorem sn_lt_case_form_witness :
    supportedWidth 8 ∧ 10 < 2 ^ 8 ∧ 250 < 2 ^ 8 ∧
    ((sn_lt 8 10 250 =
      if (10 : Nat) = 250 then false
      else if (10 : Nat) < 250 then decide (250 - 10 < HALF 8)
      else decide (10 - 250 > HALF 8)) ∧
     sn_gt 8 10 250 = true ∧ sn_lt 8 10 250 = false) :=
  ⟨Or.inl rfl, by decide, by decide,
    sn_lt_case_form 8 10 250 (Or.inl rfl) (by decide) (by decide)⟩

/-- C2: at the critical distance (absolute raw difference exactly
HALF = 2^(W-1)) the operations lt, gt, le, ge and eq are all false while ne
is true; hence lt = false and gt = false together do not imply eq = true.
Concretely at width 8 with a = 10, b = 138. -/
theorem sn_critical_distance_all_false (W a b : Nat) (hW : supportedWidth W)
    (ha : a < 2 ^ W) (hb : b < 2 ^ W)
    (hd : max a b - min a b = HALF W) :
    (sn_lt W a b = false ∧ sn_gt W a b = false ∧ sn_le W a b = false ∧
     sn_ge W a b = false ∧ sn_eq W a b = false ∧ sn_ne W a b = true) ∧
    (sn_lt 8 10 138 = false ∧ sn_gt 8 10 138 = false ∧
     sn_le 8 10 138 = false ∧ sn_ge 8 10 138 = false ∧
     sn_eq 8 10 138 = false ∧ sn_ne 8 10 138 = true) := by
  refine ⟨?_, by decide, by decide, by decide, by decide, by decide, by decide⟩
  have hH : 0 < HALF W := Nat.pow_pos (by norm_num)
  have hlt : sn_lt W a b = false := by
    rw [sn_lt_spec, decide_eq_false_iff_not]
    omega
  have hgt : sn_gt W a b = false := by
    rw [sn_gt_spec, decide_eq_false_iff_not]
    omega
  have heq : sn_eq W a b = false := by
    simp only [sn_eq, beq_eq_false_iff_ne, ne_eq]
    omega
  refine ⟨hlt, hgt, ?_, ?_, heq, ?_⟩
  · simp [sn_le, hlt, heq]
  · simp [sn_ge, hgt, heq]
  · simp [sn_ne, heq]

/-- C2 witness: the critical-distance theorem instantiated at width 8 with
a = 10, b = 138 (difference exactly 128). -/
theorem sn_critical_distance_all_false_witness :
    supportedWidth 8 ∧ 10 < 2 ^ 8 ∧ 138 < 2 ^ 8 ∧
    max 10 138 - min 10 138 = HALF 8 ∧
    ((sn_lt 8 10 138 = false ∧ sn_gt 8 10 138 = false ∧
      sn_le 8 10 138 = false ∧ sn_ge 8 10 138 = false ∧
      sn_eq 8 10 138 = false ∧ sn_ne 8 10 138 = true) ∧
     (sn_lt 8 10 138 = false ∧ sn_gt 8 10 138 = false ∧
      sn_le 8 10 138 = false ∧ sn_ge 8 10 138 = false ∧
      sn_eq 8 10 138 = false ∧ sn_ne 8 10 138 = true)) :=
  ⟨Or.inl rfl, by decide, by decide, by decide,
    sn_critical_distance_all_false 8 10 138 (Or.inl rfl) (by decide)
      (by decide) (by decide)⟩

/-- C10: away from the critical distance, exactly one of eq, lt, gt is
true (trichotomy holds whenever the absolute raw difference is not exactly
2^(W-1)). -/
theorem sn_trichotomy_off_critical (W a b : Nat) (hW : supportedWidth W)
    (ha : a < 2 ^ W) (hb : b < 2 ^ W)
    (hd : max a b - min a b ≠ HALF W) :
    (sn_eq W a b = true ∧ sn_lt W a b = false ∧ sn_gt W a b = false) ∨
    (sn_eq W a b = false ∧ sn_lt W a b = true ∧ sn_gt W a b = false) ∨
    (sn_eq W a b = false ∧ sn_lt W a b = false ∧ sn_gt W a b = true) := by
  rcases Nat.lt_trichotomy a b with h | h | h
  · have heq : sn_eq W a b = false := by
      simp only [sn_eq, beq_eq_false_iff_ne, ne_eq]
      omega
    by_cases hsmall : b - a < HALF W
    · refine Or.inr (Or.inl ⟨heq, ?_, ?_⟩)
      · rw [sn_lt_spec, decide_eq_true_eq]
        exact Or.inl ⟨h, hsmall⟩
      · rw [sn_gt_spec, decide_eq_false_iff_not]
        omega
    · have hbig : HALF W < b - a := by omega
      refine Or.inr (Or.inr ⟨heq, ?_, ?_⟩)
      · rw [sn_lt_spec, decide_eq_false_iff_not]
        omega
      · rw [sn_gt_spec, decide_eq_true_eq]
        exact Or.inl ⟨h, hbig⟩
  · subst h
    refine Or.inl ⟨by simp [sn_eq], ?_, ?_⟩
    · rw [sn_lt_spec, decide_eq_false_iff_not]
      omega
    · rw [sn_gt_spec, decide_eq_false_iff_not]
      omega
  · have heq : sn_eq W a b = false := by
      simp only [sn_eq, beq_eq_false_iff_ne, ne_eq]
      omega
    by_cases hsmall : a - b < HALF W
    · refine Or.inr (Or.inr ⟨heq, ?_, ?_⟩)
      · rw [sn_lt_spec, decide_eq_false_iff_not]
        omega
      · rw [sn_gt_spec, decide_eq_true_eq]
        exact Or.inr ⟨h, hsmall⟩
    · have hbig : HALF W < a - b := by omega
      refine Or.inr (Or.inl ⟨heq, ?_, ?_⟩)
      · rw [sn_lt_spec, decide_eq_true_eq]
        exact Or.inr ⟨h, hbig⟩
      · rw [sn_gt_spec, decide_eq_false_iff_not]
        omega

/-- C10 witness: trichotomy instantiated at width 8 with a = 10, b = 30
(difference 30, not the critical distance 128). -/
theorem sn_trichotomy_off_critical_witness :
    supportedWidth 8 ∧ 10 < 2 ^ 8 ∧ 30 < 2 ^ 8 ∧
    max 10 30 - min 10 30 ≠ HALF 8 ∧
    ((sn_eq 8 10 30 = true ∧ sn_lt 8 10 30 = false ∧ sn_gt 8 10 30 = false) ∨
     (sn_eq 8 10 30 = false ∧ sn_lt 8 10 30 = true ∧ sn_gt 8 10 30 = false) ∨
     (sn_eq 8 10 30 = false ∧ sn_lt 8 10 30 = false ∧ sn_gt 8 10 30 = true)) :=
  ⟨Or.inl rfl, by decide, by decide, by decide,
    sn_trichotomy_off_critical 8 10 30 (Or.inl rfl) (by decide) (by decide)
      (by decide)⟩

/-- C6: both the prefix and the postfix increment advance the stored value
by exactly one modulo 2^W; in particular a width-8 value holding 255 holds
0 after one increment, with no overflow trap (the operation is total). -/
theorem sn_increment_mod (W : Nat) (s : SerialNumber W)
    (hW : supportedWidth W) (hs : s.n < 2 ^ W) :
    ((s.preInc).2.value = (s.value + 1) % 2 ^ W ∧
     (s.postInc).2.value = (s.value + 1) % 2 ^ W) ∧
    ((⟨255⟩ : SerialNumber 8).preInc).2.value = 0 ∧
    ((⟨255⟩ : SerialNumber 8).postInc).2.value = 0 := by
  exact ⟨⟨rfl, rfl⟩, by decide, by decide⟩

/-- C6 witness: the increment theorem instantiated at width 8 with the
stored value 255, which wraps to 0. -/
theorem sn_increment_mod_witness :
    supportedWidth 8 ∧ (⟨255⟩ : SerialNumber 8).n < 2 ^ 8 ∧
    ((((⟨255⟩ : SerialNumber 8).preInc).2.value =
        ((⟨255⟩ : SerialNumber 8).value + 1) % 2 ^ 8 ∧
      ((⟨255⟩ : SerialNumber 8).postInc).2.value =
        ((⟨255⟩ : SerialNumber 8).value + 1) % 2 ^ 8) ∧
     ((⟨255⟩ : SerialNumber 8).preInc).2.value = 0 ∧
     ((⟨255⟩ : SerialNumber 8).postInc).2.value = 0) :=
  ⟨Or.inl rfl, by decide,
    sn_increment_mod 8 ⟨255⟩ (Or.inl rfl) (by decide)⟩

/-- C7: the postfix increment returns a snapshot holding the pre-increment
value, the prefix increment returns the post-increment state, and in both
cases the receiver ends up incremented by exactly one modulo 2^W. -/
theorem sn_inc_return_contract (W : Nat) (s : SerialNumber W)
    (hW : supportedWidth W) :
    (s.postInc).1.value = s.value ∧
    (s.preInc).1 = (s.preInc).2 ∧
    (s.preInc).2.value = (s.value + 1) % 2 ^ W ∧
    (s.postInc).2.value = (s.value + 1) % 2 ^ W :=
  ⟨rfl, rfl, rfl, rfl⟩

/-- C7 witness: the return contract instantiated at width 8 with the
stored value 7. -/
theorem sn_inc_return_contract_witness :
    supportedWidth 8 ∧
    (((⟨7⟩ : SerialNumber 8).postInc).1.value = (⟨7⟩ : SerialNumber 8).value ∧
     ((⟨7⟩ : SerialNumber 8).preInc).1 = ((⟨7⟩ : SerialNumber 8).preInc).2 ∧
     ((⟨7⟩ : SerialNumber 8).preInc).2.value =
       ((⟨7⟩ : SerialNumber 8).value + 1) % 2 ^ 8 ∧
     ((⟨7⟩ : SerialNumber 8).postInc).2.value =
       ((⟨7⟩ : SerialNumber 8).value + 1) % 2 ^ 8) :=
  ⟨Or.inl rfl, sn_inc_return_contract 8 ⟨7⟩ (Or.inl rfl)⟩

/-- C8: every comparison between a SerialNumber of width W and a plain
number first truncates the plain number into the exact W-bit unsigned
representation (static_cast, modulo 2^W) and then applies the same
comparison algorithm; in particular at width 8, for sv holding 10,
eq(sv, 10 + 256) = true because 266 truncates to 10. -/
theorem sn_mixed_truncates (W : Nat) (s : SerialNumber W) (v : Nat)
    (hW : supportedWidth W) (hs : s.n < 2 ^ W) :
    (sn_eq_mixed s v = sn_eq W s.n (v % 2 ^ W) ∧
     sn_ne_mixed s v = sn_ne W s.n (v % 2 ^ W) ∧
     sn_lt_mixed s v = sn_lt W s.n (v % 2 ^ W) ∧
     sn_gt_mixed s v = sn_gt W s.n (v % 2 ^ W) ∧
     sn_le_mixed s v = sn_le W s.n (v % 2 ^ W) ∧
     sn_ge_mixed s v = sn_ge W s.n (v % 2 ^ W)) ∧
    sn_eq_mixed (⟨10⟩ : SerialNumber 8) (10 + 256) = true := by
  exact ⟨⟨rfl, rfl, rfl, rfl, rfl, rfl⟩, by decide⟩

/-- C8 witness: the truncation theorem instantiated at width 8 with the
stored value 10 and the plain number 266 = 10 + 256. -/
theorem sn_mixed_truncates_witness :
    supportedWidth 8 ∧ (⟨10⟩ : SerialNumber 8).n < 2 ^ 8 ∧
    ((sn_eq_mixed (⟨10⟩ : SerialNumber 8) 266 =
        sn_eq 8 (⟨10⟩ : SerialNumber 8).n (266 % 2 ^ 8) ∧
      sn_ne_mixed (⟨10⟩ : SerialNumber 8) 266 =
        sn_ne 8 (⟨10⟩ : SerialNumber 8).n (266 % 2 ^ 8) ∧
      sn_lt_mixed (⟨10⟩ : SerialNumber 8) 266 =
        sn_lt 8 (⟨10⟩ : SerialNumber 8).n (266 % 2 ^ 8) ∧
      sn_gt_mixed (⟨10⟩ : SerialNumber 8) 266 =
        sn_gt 8 (⟨10⟩ : SerialNumber 8).n (266 % 2 ^ 8) ∧
      sn_le_mixed (⟨10⟩ : SerialNumber 8) 266 =
        sn_le 8 (⟨10⟩ : SerialNumber 8).n (266 % 2 ^ 8) ∧
      sn_ge_mixed (⟨10⟩ : SerialNumber 8) 266 =
        sn_ge 8 (⟨10⟩ : SerialNumber 8).n (266 % 2 ^ 8)) ∧
     sn_eq_mixed (⟨10⟩ : SerialNumber 8) (10 + 256) = true) :=
  ⟨Or.inl rfl, by decide,
    sn_mixed_truncates 8 ⟨10⟩ 266 (Or.inl rfl) (by decide)⟩
